import Mathlib

/-!
Verification development for the deblib JKTEBOP orchestration layer
(`deblib/jktebop/templateex.py`, `deblib/jktebop/jktebop.py`,
`deblib/jktebop/task.py`).

The Python code is shallowly embedded: the template engine (`TemplateEx`, a
subclass of CPython's `string.Template`) is modelled as an executable scanner
over character lists reproducing the behaviour of `Template.pattern` (the
regex `\$(?:(?P<escaped>\$)|(?P<named>id)|\x7b(?P<braced>id)\x7d|(?P<invalid>))`
with `idpattern = (?a:[_a-z][_a-z0-9]*)` under IGNORECASE), and the process
runner (`execute_task` / `execute_task_async`) is modelled as a pure function
over an explicit filesystem state plus an engine-behaviour oracle, recording
the spawned processes and the drained diagnostic buffer.  Python exceptions
are modelled with the `PyError` type and `Except` results.
-/

namespace Deblib

/-- The Python exceptions that the embedded code can raise. -/
inductive PyError where
  | fileNotFoundError (path : String)
  | calledProcessError (returncode : Int) (cmd : List String) (output : String)
  | attributeErrorNone (attr : String)
  | keyError (key : String)
  | valueErrorInvalidPlaceholder (pos : Nat)
  deriving DecidableEq, Repr

/-! ### `templateex.py`: the `string.Template` scanner

`TemplateEx` delegates substitution to `string.Template`, so the behaviour of
CPython's `Template.pattern` scan and of its `substitute` / `safe_substitute`
`convert` callbacks is embedded here from CPython's `Lib/string.py`. -/

/-- Identifier start characters of `Template.idpattern`
(`(?a:[_a-z][_a-z0-9]*)` matched with IGNORECASE, hence ASCII letters of
either case and underscore). -/
def isIdStart (c : Char) : Bool :=
  c = '_' || ('a' ≤ c && c ≤ 'z') || ('A' ≤ c && c ≤ 'Z')

/-- Identifier continuation characters of `Template.idpattern`. -/
def isIdCont (c : Char) : Bool :=
  isIdStart c || ('0' ≤ c && c ≤ '9')

/-- Greedily take identifier-continuation characters (the `[_a-z0-9]*` part),
returning the run and the remainder. -/
def takeIdCont : List Char → List Char × List Char
  | [] => ([], [])
  | c :: r =>
    if isIdCont c then
      let p := takeIdCont r
      (c :: p.1, p.2)
    else ([], c :: r)

theorem takeIdCont_length (l : List Char) : (takeIdCont l).2.length ≤ l.length := by
  induction l with
  | nil => simp [takeIdCont]
  | cons c r ih =>
    simp only [takeIdCont]
    split
    · simpa using Nat.le_succ_of_le ih
    · simp

/-- One token of the `Template.pattern` scan: literal text, the `$$` escape,
a `$name` placeholder, a `$\x7bname\x7d` placeholder, or an invalid bare `$`. -/
inductive Tok where
  | lit (c : Char)
  | escaped
  | named (x : String)
  | braced (x : String)
  | invalid
  deriving DecidableEq, Repr

/-- The scan performed by `re.sub`/`re.finditer` with `Template.pattern`:
at each `$`, try in order the `escaped`, `named` and `braced` alternatives and
fall back to the empty `invalid` group (the match then being the bare `$`,
with scanning resuming at the following character); text between matches is
literal. -/
def scan : List Char → List Tok
  | [] => []
  | c :: rest =>
    if c = '$' then
      match rest with
      | '$' :: r => .escaped :: scan r
      | '{' :: c2 :: r2 =>
        if isIdStart c2 then
          match h2 : (takeIdCont r2).2 with
          | '}' :: r3 => .braced (String.mk (c2 :: (takeIdCont r2).1)) :: scan r3
          | _ => .invalid :: scan ('{' :: c2 :: r2)
        else .invalid :: scan ('{' :: c2 :: r2)
      | '{' :: [] => .invalid :: scan ['{']
      | c2 :: r2 =>
        if isIdStart c2 then
          .named (String.mk (c2 :: (takeIdCont r2).1)) :: scan (takeIdCont r2).2
        else .invalid :: scan (c2 :: r2)
      | [] => [.invalid]
    else .lit c :: scan rest
  termination_by l => l.length
  decreasing_by
    all_goals first
      | (have h7 := takeIdCont_length r2; simp_all <;> omega)
      | (simp <;> omega)
      | omega

/-- Take characters up to the first `\x7d` (the regex `[^\x7d]*\x7d`),
returning the run and the remainder after the brace, if a brace occurs. -/
def splitUntilBrace : List Char → Option (List Char × List Char)
  | [] => none
  | c :: r =>
    if c = '}' then some ([], r)
    else
      match splitUntilBrace r with
      | some p => some (c :: p.1, p.2)
      | none => none

theorem splitUntilBrace_length {l : List Char} {p : List Char × List Char}
    (h : splitUntilBrace l = some p) : p.2.length < l.length := by
  induction l generalizing p with
  | nil => simp [splitUntilBrace] at h
  | cons c r ih =>
    simp only [splitUntilBrace] at h
    split at h
    · simp only [Option.some.injEq] at h
      rw [← h]
      simp
    · split at h
      · simp only [Option.some.injEq] at h
        rw [← h]
        simpa using Nat.lt_succ_of_lt (ih (by assumption))
      · exact absurd h (by simp)

/-- The parse performed by `TemplateEx.__init__`: scan for occurrences of
`pattern_for_defaults` (the regex `\$\x7b(?:(?P<name>id)\|(?P<default>[^\x7d]*))\x7d`),
recording each `(name, default)` pair in occurrence order and rewriting every
occurrence to the canonical `$\x7bname\x7d` form.  When a match attempt at a
`$` fails, scanning resumes at the next character, exactly as `re` does. -/
def rewriteDefaults : List Char → List (String × String) × List Char
  | [] => ([], [])
  | c :: rest =>
    if c = '$' then
      match rest with
      | '{' :: c2 :: r2 =>
        if isIdStart c2 then
          match hm : (takeIdCont r2).2 with
          | '|' :: r3 =>
            match h4 : splitUntilBrace r3 with
            | some (dflt, r4) =>
              let p := rewriteDefaults r4
              ((String.mk (c2 :: (takeIdCont r2).1), String.mk dflt) :: p.1,
               '$' :: '{' :: (c2 :: (takeIdCont r2).1) ++ '}' :: p.2)
            | none =>
              let p := rewriteDefaults ('{' :: c2 :: r2)
              (p.1, '$' :: p.2)
          | _ =>
            let p := rewriteDefaults ('{' :: c2 :: r2)
            (p.1, '$' :: p.2)
        else
          let p := rewriteDefaults ('{' :: c2 :: r2)
          (p.1, '$' :: p.2)
      | '{' :: [] =>
        let p := rewriteDefaults ['{']
        (p.1, '$' :: p.2)
      | c2 :: r2 =>
        let p := rewriteDefaults (c2 :: r2)
        (p.1, '$' :: p.2)
      | [] => ([], ['$'])
    else
      let p := rewriteDefaults rest
      (p.1, c :: p.2)
  termination_by l => l.length
  decreasing_by
    all_goals first
      | (have h5 := takeIdCont_length r2;
         have h6 := splitUntilBrace_length h4;
         simp_all <;> omega)
      | (have h5 := takeIdCont_length r2; simp_all <;> omega)
      | (simp_all <;> omega)
      | (simp <;> omega)
      | omega

/-- The parsed form of a `TemplateEx`: the defaults recorded from
`$\x7bname|default\x7d` occurrences (`self._defaults`; kept as an association
list whose first binding wins, matching the first-occurrence-wins insertion)
and the rewritten template text (`self.template`). -/
structure TemplateEx where
  defaults : List (String × String)
  template : List Char
  deriving DecidableEq, Repr

/-- `TemplateEx.__init__` for a string argument. -/
def TemplateEx.ofChars (text : List Char) : TemplateEx :=
  { defaults := (rewriteDefaults text).1, template := (rewriteDefaults text).2 }

/-- `TemplateEx(...)` on a Lean string. -/
def TemplateEx.ofString (s : String) : TemplateEx :=
  TemplateEx.ofChars s.data

/-- Dictionary lookup, first binding wins. -/
def lookupA : List (String × String) → String → Option String
  | [], _ => none
  | p :: r, x => if p.1 = x then some p.2 else lookupA r x

/-- CPython `ChainMap` of two lookups: try the first map, else the second. -/
def chainMap2 (f g : String → Option String) (x : String) : Option String :=
  match f x with
  | some v => some v
  | none => g x

/-- The effective mapping built by `TemplateEx.substitute` /
`TemplateEx.safe_substitute`: `TemplateEx` wraps the caller mapping as
`_ChainMap(mapping, self._defaults)` and `string.Template` then wraps the
keyword arguments as `_ChainMap(kws, mapping)`, so resolution tries keyword
arguments, then the explicit mapping, then the template-declared defaults. -/
def TemplateEx.effectiveMapping (t : TemplateEx)
    (mapping kwds : List (String × String)) : String → Option String :=
  chainMap2 (lookupA kwds) (chainMap2 (lookupA mapping) (lookupA t.defaults))

/-- Widths of the regex matches, used to track offsets for the
`Invalid placeholder` error position. -/
def tokWidth : Tok → Nat
  | .lit _ => 1
  | .escaped => 2
  | .named x => 1 + x.length
  | .braced x => 3 + x.length
  | .invalid => 1

/-- The `re.sub` driven by `Template.substitute`'s `convert` callback: named
and braced placeholders resolve through the mapping (raising `KeyError` for a
missing identifier), `$$` yields the delimiter, and an `invalid` match raises
`ValueError` identifying the offending position (`self._invalid(mo)`).
Matches are converted left to right, so the first offending match raises. -/
def renderStrict (f : String → Option String) :
    List Tok → Nat → Except PyError (List Char)
  | [], _ => .ok []
  | t :: ts, pos =>
    match t with
    | .lit c => (renderStrict f ts (pos + 1)).map (c :: ·)
    | .escaped => (renderStrict f ts (pos + 2)).map ('$' :: ·)
    | .named x =>
      match f x with
      | some v => (renderStrict f ts (pos + tokWidth (.named x))).map (v.data ++ ·)
      | none => .error (.keyError x)
    | .braced x =>
      match f x with
      | some v => (renderStrict f ts (pos + tokWidth (.braced x))).map (v.data ++ ·)
      | none => .error (.keyError x)
    | .invalid => .error (.valueErrorInvalidPlaceholder pos)

/-- One match conversion of `Template.safe_substitute`: a placeholder whose
identifier is missing from the mapping, and an `invalid` match, are both
reproduced verbatim (`return mo.group()`). -/
def safeConvert (f : String → Option String) : Tok → List Char
  | .lit c => [c]
  | .escaped => ['$']
  | .named x =>
    match f x with
    | some v => v.data
    | none => '$' :: x.data
  | .braced x =>
    match f x with
    | some v => v.data
    | none => '$' :: '{' :: x.data ++ ['}']
  | .invalid => ['$']

/-- The `re.sub` driven by `Template.safe_substitute`'s `convert` callback. -/
def renderSafe (f : String → Option String) (ts : List Tok) : List Char :=
  (ts.map (safeConvert f)).flatten

/-- `TemplateEx.substitute(mapping, **kwds)`. -/
def TemplateEx.substitute (t : TemplateEx)
    (mapping kwds : List (String × String)) : Except PyError String :=
  (renderStrict (t.effectiveMapping mapping kwds) (scan t.template) 0).map String.mk

/-- `TemplateEx.safe_substitute(mapping, **kwds)`. -/
def TemplateEx.safe_substitute (t : TemplateEx)
    (mapping kwds : List (String × String)) : String :=
  String.mk (renderSafe (t.effectiveMapping mapping kwds) (scan t.template))

/-- The identifier carried by a placeholder token, if any. -/
def tokName : Tok → Option String
  | .named x => some x
  | .braced x => some x
  | _ => none

/-- Append an identifier if it has not been seen yet (the
`if named not in ids: ids.append(named)` accumulation). -/
def addFirst (acc : List String) (x : String) : List String :=
  if x ∈ acc then acc else acc ++ [x]

/-- `TemplateEx.get_template_identifiers`: the placeholder identifiers in
first-occurrence order with duplicates collapsed. -/
def getIdentifiers (tmpl : List Char) : List String :=
  ((scan tmpl).filterMap tokName).foldl addFirst []

/-- `TemplateEx.get_identifiers_and_defaults`: each identifier paired with
`self._defaults.get(i, None)` (so `none` models Python's `None`, distinct
from an empty-string default). -/
def TemplateEx.get_identifiers_and_defaults (t : TemplateEx) :
    List (String × Option String) :=
  (getIdentifiers t.template).map (fun i => (i, lookupA t.defaults i))

/-! ### `jktebop.py`: the process runner

`execute_task` is embedded as a pure function over an explicit filesystem
state (`World`) together with an oracle (`EngineBehavior`) describing what
the external `jktebop` process would do when spawned: its exit code, the
lines it writes to the merged stdout/stderr stream, and the files it
creates in its working directory.  The returned `RunOutcome` records the
Python-level result of fully consuming the generator returned by
`execute_task` (its body only runs when iterated), the filesystem state
afterwards, every process spawned, and the content of the internal
diagnostic buffer (`my_stdout_to`) at classification time. -/

/-- A filesystem path, split as `pathlib` exposes it: `dir` is `.parent`
and `name` is `.name`. -/
structure FPath where
  dir : String
  name : String
  deriving DecidableEq, Repr

/-- The filesystem: an association of paths to line lists. -/
structure World where
  files : List (FPath × List String)
  deriving DecidableEq, Repr

/-- `Path.exists()`. -/
def World.existsFile (w : World) (p : FPath) : Bool :=
  w.files.any (fun f => f.1 = p)

/-- `Path.write_text` / creating a file (overwrites an existing one). -/
def World.writeFile (w : World) (p : FPath) (content : List String) : World :=
  { files := (p, content) :: w.files.filter (fun f => ¬ f.1 = p) }

/-- `Path.unlink(missing_ok=True)`. -/
def World.unlinkFile (w : World) (p : FPath) : World :=
  { files := w.files.filter (fun f => ¬ f.1 = p) }

/-- `open(p).readlines()`-style access to a file's lines. -/
def World.readFile (w : World) (p : FPath) : Option (List String) :=
  (w.files.find? (fun f => f.1 = p)).map (fun f => f.2)

/-- What the external engine process would do when spawned: its exit code,
the lines it writes to the merged stdout/stderr pipe before exiting, and the
files it creates (named relative to its working directory). -/
structure EngineBehavior where
  exitCode : Int
  stdoutLines : List String
  producedFiles : List (String × List String)
  deriving DecidableEq, Repr

/-- The filesystem effect of the engine process running in directory `cwd`. -/
def runEngine (w : World) (eng : EngineBehavior) (cwd : String) : World :=
  eng.producedFiles.foldl (fun a f => a.writeFile ⟨cwd, f.1⟩ f.2) w

/-- `fnmatch`-style glob matching with `*` and `?` wildcards (the subset of
`Path.glob` pattern syntax the cleanup patterns use). -/
def globMatch : List Char → List Char → Bool
  | [], [] => true
  | [], _ :: _ => false
  | p :: ps, [] => if p = '*' then globMatch ps [] else false
  | p :: ps, c :: s =>
    if p = '*' then globMatch ps (c :: s) || globMatch (p :: ps) s
    else (p = '?' || p = c) && globMatch ps s
  termination_by p s => (s.length, p.length)
  decreasing_by
    all_goals simp_all <;> omega

/-- One directory pass of the cleanup loop
`for file in parent.glob(cleanup_pattern): file.unlink()`. -/
def deleteMatching (w : World) (dir : String) (pat : String) : World :=
  { files := w.files.filter
      (fun f => ¬ (f.1.dir = dir ∧ globMatch pat.data f.1.name.data = true)) }

/-- Substring containment, as Python's `needle in haystack`. -/
def hasSub (needle : List Char) : List Char → Bool
  | [] => needle.isEmpty
  | c :: h => needle.isPrefixOf (c :: h) || hasSub needle h

/-- `"### ERROR" in output` and friends, on strings. -/
def strContains (hay needle : String) : Bool :=
  hasSub needle.data hay.data

/-- The `capture_process_stdout` loop run to completion on the merged output
stream: `readline` until it returns a falsy (empty) line, writing each line
read to the `PassThroughStringIO` buffer.  The stream is the list of values
successive `readline` calls produce, with end-of-stream modelled by list
exhaustion (a real `readline` returns `""` there). -/
def drainLoop : List String → List String
  | [] => []
  | l :: rest => if l = "" then [] else l :: drainLoop rest

/-- `"".join`-style concatenation of the buffered lines, as
`StringIO.getvalue` returns it. -/
def joinAll (ls : List String) : String :=
  ls.foldl (fun a s => a ++ s) ""

/-- The result of fully consuming one `execute_task` generator: the Python
result (the yielded out-file lines, or the raised exception), the filesystem
afterwards, the processes spawned (command line and working directory), and
the diagnostic buffer content at classification time. -/
structure RunOutcome where
  result : Except PyError (List String)
  world : World
  spawns : List (List String × String)
  captured : List String
  deriving Repr

/-- `execute_task_async(in_file)`: validate that the in-file exists (raising
`FileNotFoundError(in_file)` otherwise), then spawn
`["./jktebop", in_file.name]` with the working directory set to the in-file's
parent and stdout/stderr merged; returns the spawn (command line, cwd). -/
def execute_task_async (w : World) (in_file : FPath) :
    Except PyError (List String × String) :=
  if w.existsFile in_file then .ok (["./jktebop", in_file.name], in_file.dir)
  else .error (.fileNotFoundError (in_file.dir ++ "/" ++ in_file.name))

/-- Fully consuming the generator returned by
`execute_task(in_file, out_file, cleanup_pattern, raise_warnings, stdout_to)`:
launch via `execute_task_async`, drain the merged output on the capture
thread, `proc.wait()` for the exit code, `stdout_thread.join()`, then
classify: `if return_code != 0 or not out_file.exists() or "### ERROR" in
output: raise CalledProcessError(return_code, cmd=cmd, output=output)`.
Short-circuit evaluation means a `None` `out_file` raises `AttributeError`
from `out_file.exists()` only when the exit code is zero.  On success the
out-file's lines are yielded and, if `cleanup_pattern` is truthy, every file
matching it in the in-file's and out-file's parent directories is deleted. -/
def execute_task (w : World) (eng : EngineBehavior) (in_file : FPath)
    (out_file : Option FPath) (cleanup_pattern : Option String) : RunOutcome :=
  match execute_task_async w in_file with
  | .error e => { result := .error e, world := w, spawns := [], captured := [] }
  | .ok spawn =>
    let w1 := runEngine w eng in_file.dir
    let buffer := drainLoop eng.stdoutLines
    let output := joinAll buffer
    let return_code := eng.exitCode
    if return_code ≠ 0 then
      { result := .error (.calledProcessError return_code spawn.1 output),
        world := w1, spawns := [spawn], captured := buffer }
    else
      match out_file with
      | none =>
        { result := .error (.attributeErrorNone "exists"),
          world := w1, spawns := [spawn], captured := buffer }
      | some ofp =>
        if ¬ w1.existsFile ofp ∨ strContains output "### ERROR" then
          { result := .error (.calledProcessError return_code spawn.1 output),
            world := w1, spawns := [spawn], captured := buffer }
        else
          let lines := (w1.readFile ofp).getD []
          match cleanup_pattern with
          | some pat =>
            if pat ≠ "" then
              { result := .ok lines,
                world := deleteMatching (deleteMatching w1 in_file.dir pat) ofp.dir pat,
                spawns := [spawn], captured := buffer }
            else
              { result := .ok lines, world := w1, spawns := [spawn], captured := buffer }
          | none =>
            { result := .ok lines, world := w1, spawns := [spawn], captured := buffer }

/-! ### `task.py`: the task controller -/

/-- A `Task`: a working directory and the template for its in-files. -/
structure Task where
  working_dir : String
  template : TemplateEx
  deriving Repr

/-- `Task._cleanup_files(file_stem)`: remove the known jktebop file types
matching the stem from the working directory, missing files allowed. -/
def Task.cleanup_files (t : Task) (w : World) (file_stem : String) : World :=
  ["in", "par", "out", "fit"].foldl
    (fun a ext => a.unlinkFile ⟨t.working_dir, file_stem ++ "." ++ ext⟩) w

/-- Fully consuming the generator returned by
`Task.run(params, file_stem, primary_result_file_ext, do_cleanup, ...)`:
pre-clean the stem, compute the in-file and optional result-file paths,
write the in-file from `self._template.substitute(params)` (a `KeyError`
propagating), then evaluate the line
`execute_task(in_file, result_file, raise_warnings, stdout_to)`.
`execute_task` is a generator function, so that call only creates a
generator object which is discarded unconsumed: none of its body (launch,
drain, wait, classification) runs, no process is spawned, and the engine
is never involved (the call also passes `raise_warnings` and `stdout_to`
positionally into the `cleanup_pattern` and `raise_warnings` parameters).
`Task.run` then opens the result file itself — raising
`FileNotFoundError` when it does not exist — yields its lines, and
re-cleans the stem if `do_cleanup` is set. -/
def Task.run (t : Task) (w : World) (params : List (String × String))
    (file_stem : String) (primary_result_file_ext : Option String)
    (do_cleanup : Bool) : RunOutcome :=
  let w1 := t.cleanup_files w file_stem
  let in_file : FPath := ⟨t.working_dir, file_stem ++ ".in"⟩
  match t.template.substitute params [] with
  | .error e => { result := .error e, world := w1, spawns := [], captured := [] }
  | .ok text =>
    let w2 := w1.writeFile in_file [text]
    match primary_result_file_ext with
    | some ext =>
      let result_file : FPath := ⟨t.working_dir, file_stem ++ "." ++ ext⟩
      match w2.readFile result_file with
      | none =>
        { result := .error (.fileNotFoundError (result_file.dir ++ "/" ++ result_file.name)),
          world := w2, spawns := [], captured := [] }
      | some lines =>
        let w3 := if do_cleanup then t.cleanup_files w2 file_stem else w2
        { result := .ok lines, world := w3, spawns := [], captured := [] }
    | none =>
      let w3 := if do_cleanup then t.cleanup_files w2 file_stem else w2
      { result := .ok [], world := w3, spawns := [], captured := [] }

/-! ### Helper lemmas -/

theorem except_map_error {α β : Type} {g : α → β} {e : Except PyError α} {a : PyError} :
    Except.map g e = .error a ↔ e = .error a := by
  cases e <;> simp [Except.map]

theorem renderStrict_keyError {f : String → Option String} {ts : List Tok}
    {pos : Nat} {x : String}
    (h : renderStrict f ts pos = .error (.keyError x)) :
    f x = none ∧ (Tok.named x ∈ ts ∨ Tok.braced x ∈ ts) := by
  induction ts generalizing pos with
  | nil => simp [renderStrict] at h
  | cons t ts ih =>
    cases t with
    | lit c =>
      rw [renderStrict, except_map_error] at h
      refine ⟨(ih h).1, ?_⟩
      rcases (ih h).2 with h2 | h2
      · exact Or.inl (List.mem_cons_of_mem _ h2)
      · exact Or.inr (List.mem_cons_of_mem _ h2)
    | escaped =>
      rw [renderStrict, except_map_error] at h
      refine ⟨(ih h).1, ?_⟩
      rcases (ih h).2 with h2 | h2
      · exact Or.inl (List.mem_cons_of_mem _ h2)
      · exact Or.inr (List.mem_cons_of_mem _ h2)
    | named y =>
      rw [renderStrict] at h
      cases hf : f y with
      | some v =>
        rw [hf] at h
        rw [except_map_error] at h
        refine ⟨(ih h).1, ?_⟩
        rcases (ih h).2 with h2 | h2
        · exact Or.inl (List.mem_cons_of_mem _ h2)
        · exact Or.inr (List.mem_cons_of_mem _ h2)
      | none =>
        rw [hf] at h
        simp only [Except.error.injEq, PyError.keyError.injEq] at h
        subst h
        exact ⟨hf, Or.inl (List.mem_cons_self _ _)⟩
    | braced y =>
      rw [renderStrict] at h
      cases hf : f y with
      | some v =>
        rw [hf] at h
        rw [except_map_error] at h
        refine ⟨(ih h).1, ?_⟩
        rcases (ih h).2 with h2 | h2
        · exact Or.inl (List.mem_cons_of_mem _ h2)
        · exact Or.inr (List.mem_cons_of_mem _ h2)
      | none =>
        rw [hf] at h
        simp only [Except.error.injEq, PyError.keyError.injEq] at h
        subst h
        exact ⟨hf, Or.inr (List.mem_cons_self _ _)⟩
    | invalid =>
      rw [renderStrict] at h
      simp at h

theorem renderStrict_missing {f : String → Option String} {ts : List Tok} {x : String}
    (hmem : Tok.named x ∈ ts ∨ Tok.braced x ∈ ts) (hf : f x = none) :
    ∀ pos, ∃ e, renderStrict f ts pos = .error e := by
  induction ts with
  | nil => simp at hmem
  | cons t ts ih =>
    intro pos
    have tail_of_ne : t ≠ Tok.named x → t ≠ Tok.braced x →
        (Tok.named x ∈ ts ∨ Tok.braced x ∈ ts) := by
      intro h1 h2
      rcases hmem with h3 | h3
      · rcases List.mem_cons.mp h3 with h4 | h4
        · exact absurd h4.symm h1
        · exact Or.inl h4
      · rcases List.mem_cons.mp h3 with h4 | h4
        · exact absurd h4.symm h2
        · exact Or.inr h4
    cases t with
    | lit c =>
      obtain ⟨e, he⟩ := ih (tail_of_ne (by simp) (by simp)) (pos + 1)
      exact ⟨e, by rw [renderStrict, he]; rfl⟩
    | escaped =>
      obtain ⟨e, he⟩ := ih (tail_of_ne (by simp) (by simp)) (pos + 2)
      exact ⟨e, by rw [renderStrict, he]; rfl⟩
    | named y =>
      cases hf2 : f y with
      | none => exact ⟨.keyError y, by rw [renderStrict, hf2]⟩
      | some v =>
        have hxy : Tok.named y ≠ Tok.named x := by
          intro hc
          simp only [Tok.named.injEq] at hc
          rw [hc, hf] at hf2
          cases hf2
        obtain ⟨e, he⟩ := ih (tail_of_ne hxy (by simp)) (pos + tokWidth (.named y))
        exact ⟨e, by rw [renderStrict, hf2, he]; rfl⟩
    | braced y =>
      cases hf2 : f y with
      | none => exact ⟨.keyError y, by rw [renderStrict, hf2]⟩
      | some v =>
        have hxy : Tok.braced y ≠ Tok.braced x := by
          intro hc
          simp only [Tok.braced.injEq] at hc
          rw [hc, hf] at hf2
          cases hf2
        obtain ⟨e, he⟩ := ih (tail_of_ne (by simp) hxy) (pos + tokWidth (.braced y))
        exact ⟨e, by rw [renderStrict, hf2, he]; rfl⟩
    | invalid =>
      exact ⟨.valueErrorInvalidPlaceholder pos, by rw [renderStrict]⟩

/-- The identifier of the first placeholder token whose identifier the
mapping does not resolve — the one whose `mapping[named]` lookup is the
first to raise `KeyError` during the left-to-right `pattern.sub` conversion
(when no `invalid` match precedes it). -/
def firstMissingId (f : String → Option String) : List Tok → Option String
  | [] => none
  | .named x :: ts => if f x = none then some x else firstMissingId f ts
  | .braced x :: ts => if f x = none then some x else firstMissingId f ts
  | _ :: ts => firstMissingId f ts

theorem renderStrict_first_missing {f : String → Option String} :
    ∀ (ts : List Tok) (pos : Nat) {x : String},
      Tok.invalid ∉ ts →
      (Tok.named x ∈ ts ∨ Tok.braced x ∈ ts) → f x = none →
      ∃ y, renderStrict f ts pos = .error (.keyError y) ∧
        firstMissingId f ts = some y := by
  intro ts
  induction ts with
  | nil =>
    intro pos x _ hmem _
    simp at hmem
  | cons t ts ih =>
    intro pos x hnoinv hmem hf
    have hnoinv' : Tok.invalid ∉ ts := fun hc => hnoinv (List.mem_cons_of_mem _ hc)
    have tail_of_ne : t ≠ Tok.named x → t ≠ Tok.braced x →
        (Tok.named x ∈ ts ∨ Tok.braced x ∈ ts) := by
      intro h1 h2
      rcases hmem with h3 | h3
      · rcases List.mem_cons.mp h3 with h4 | h4
        · exact absurd h4.symm h1
        · exact Or.inl h4
      · rcases List.mem_cons.mp h3 with h4 | h4
        · exact absurd h4.symm h2
        · exact Or.inr h4
    cases t with
    | invalid => exact absurd (List.mem_cons_self _ _) hnoinv
    | lit c =>
      obtain ⟨y, he, hfirst⟩ :=
        ih (pos + 1) hnoinv' (tail_of_ne (by simp) (by simp)) hf
      exact ⟨y, by rw [renderStrict, he]; rfl, hfirst⟩
    | escaped =>
      obtain ⟨y, he, hfirst⟩ :=
        ih (pos + 2) hnoinv' (tail_of_ne (by simp) (by simp)) hf
      exact ⟨y, by rw [renderStrict, he]; rfl, hfirst⟩
    | named y0 =>
      cases hf2 : f y0 with
      | none =>
        exact ⟨y0, by rw [renderStrict, hf2], by simp [firstMissingId, hf2]⟩
      | some v =>
        have hxy : Tok.named y0 ≠ Tok.named x := by
          intro hc
          simp only [Tok.named.injEq] at hc
          rw [hc, hf] at hf2
          cases hf2
        obtain ⟨y, he, hfirst⟩ :=
          ih (pos + tokWidth (.named y0)) hnoinv' (tail_of_ne hxy (by simp)) hf
        refine ⟨y, by rw [renderStrict, hf2, he]; rfl, ?_⟩
        simpa [firstMissingId, hf2] using hfirst
    | braced y0 =>
      cases hf2 : f y0 with
      | none =>
        exact ⟨y0, by rw [renderStrict, hf2], by simp [firstMissingId, hf2]⟩
      | some v =>
        have hxy : Tok.braced y0 ≠ Tok.braced x := by
          intro hc
          simp only [Tok.braced.injEq] at hc
          rw [hc, hf] at hf2
          cases hf2
        obtain ⟨y, he, hfirst⟩ :=
          ih (pos + tokWidth (.braced y0)) hnoinv' (tail_of_ne (by simp) hxy) hf
        refine ⟨y, by rw [renderStrict, hf2, he]; rfl, ?_⟩
        simpa [firstMissingId, hf2] using hfirst

theorem hasSub_append_left {n : List Char} (g : List Char) {h : List Char}
    (hh : hasSub n h = true) : hasSub n (g ++ h) = true := by
  induction g with
  | nil => simpa using hh
  | cons c g ih =>
    rw [List.cons_append, hasSub, Bool.or_eq_true]
    exact Or.inr ih

theorem hasSub_append_self (n t : List Char) : hasSub n (n ++ t) = true := by
  cases n with
  | nil => cases t <;> simp [hasSub, List.isPrefixOf]
  | cons c nr =>
    rw [List.cons_append, hasSub, Bool.or_eq_true]
    left
    rw [List.isPrefixOf_iff_prefix]
    exact ⟨t, by simp⟩

theorem renderSafe_append (f : String → Option String) (l1 l2 : List Tok) :
    renderSafe f (l1 ++ l2) = renderSafe f l1 ++ renderSafe f l2 := by
  simp [renderSafe]

theorem renderSafe_cons (f : String → Option String) (t : Tok) (ts : List Tok) :
    renderSafe f (t :: ts) = safeConvert f t ++ renderSafe f ts := by
  simp [renderSafe]

/-- The offset of the first `invalid` match (given the running offset of the
already converted matches), mirroring the position `Template._invalid`
reports. -/
def firstInvalidPosAux : List Tok → Nat → Option Nat
  | [], _ => none
  | .invalid :: _, pos => some pos
  | t :: ts, pos => firstInvalidPosAux ts (pos + tokWidth t)

theorem renderStrict_invalid {f : String → Option String} {ts : List Tok}
    (hres : ∀ x, (Tok.named x ∈ ts ∨ Tok.braced x ∈ ts) → f x ≠ none)
    (hinv : Tok.invalid ∈ ts) : ∀ pos,
    renderStrict f ts pos =
      .error (.valueErrorInvalidPlaceholder ((firstInvalidPosAux ts pos).getD 0)) := by
  induction ts with
  | nil => simp at hinv
  | cons t ts ih =>
    intro pos
    have hres' : ∀ x, (Tok.named x ∈ ts ∨ Tok.braced x ∈ ts) → f x ≠ none := by
      intro x hx
      refine hres x ?_
      rcases hx with hx | hx
      · exact Or.inl (List.mem_cons_of_mem _ hx)
      · exact Or.inr (List.mem_cons_of_mem _ hx)
    cases t with
    | invalid =>
      rw [renderStrict]
      rfl
    | lit c =>
      have hinv' : Tok.invalid ∈ ts := by
        rcases List.mem_cons.mp hinv with hc | hc
        · cases hc
        · exact hc
      rw [renderStrict, ih hres' hinv' (pos + 1)]
      rfl
    | escaped =>
      have hinv' : Tok.invalid ∈ ts := by
        rcases List.mem_cons.mp hinv with hc | hc
        · cases hc
        · exact hc
      rw [renderStrict, ih hres' hinv' (pos + 2)]
      rfl
    | named y =>
      have hinv' : Tok.invalid ∈ ts := by
        rcases List.mem_cons.mp hinv with hc | hc
        · cases hc
        · exact hc
      obtain ⟨v, hv⟩ := Option.ne_none_iff_exists'.mp
        (hres y (Or.inl (List.mem_cons_self _ _)))
      rw [renderStrict, hv, ih hres' hinv' (pos + tokWidth (.named y))]
      rfl
    | braced y =>
      have hinv' : Tok.invalid ∈ ts := by
        rcases List.mem_cons.mp hinv with hc | hc
        · cases hc
        · exact hc
      obtain ⟨v, hv⟩ := Option.ne_none_iff_exists'.mp
        (hres y (Or.inr (List.mem_cons_self _ _)))
      rw [renderStrict, hv, ih hres' hinv' (pos + tokWidth (.braced y))]
      rfl

theorem drainLoop_all {ls : List String} (h : ∀ l ∈ ls, l ≠ "") :
    drainLoop ls = ls := by
  induction ls with
  | nil => rfl
  | cons l ls ih =>
    rw [drainLoop, if_neg (h l (List.mem_cons_self _ _))]
    rw [ih (fun a ha => h a (List.mem_cons_of_mem _ ha))]

theorem splitUntilBrace_no_brace {d : List Char} (h : ∀ c ∈ d, c ≠ '}')
    (r : List Char) : splitUntilBrace (d ++ '}' :: r) = some (d, r) := by
  induction d with
  | nil => simp [splitUntilBrace]
  | cons c d ih =>
    rw [List.cons_append, splitUntilBrace,
      if_neg (by simpa using h c (List.mem_cons_self _ _)),
      ih (fun a ha => h a (List.mem_cons_of_mem _ ha))]

/-! ### The claims -/

/-- Claim C4: for every template, explicit mapping argument and keyword
arguments passed to `TemplateEx.substitute` (or `safe_substitute`), a keyword
value beats the explicit mapping, a supplied value beats a template-declared
default, and template defaults apply only to identifiers not supplied at all.
Stated on the effective mapping both substitution functions resolve through
(the embedded `ChainMap(kws, ChainMap(mapping, defaults))` stack), and
extensionally on `substitute` over the template `$\x7bx|d\x7d`. -/
theorem claim_c4_substitution_precedence :
    (∀ (t : TemplateEx) (m k : List (String × String)) (x v : String),
        lookupA k x = some v → t.effectiveMapping m k x = some v)
    ∧ (∀ (t : TemplateEx) (m k : List (String × String)) (x v : String),
        lookupA k x = none → lookupA m x = some v →
          t.effectiveMapping m k x = some v)
    ∧ (∀ (t : TemplateEx) (m k : List (String × String)) (x : String),
        lookupA k x = none → lookupA m x = none →
          t.effectiveMapping m k x = lookupA t.defaults x)
    ∧ (∀ (m k : List (String × String)) (v : String),
        lookupA k "x" = some v →
          (TemplateEx.ofString "$\x7bx|d\x7d").substitute m k = .ok v)
    ∧ (∀ (m k : List (String × String)) (v : String),
        lookupA k "x" = none → lookupA m "x" = some v →
          (TemplateEx.ofString "$\x7bx|d\x7d").substitute m k = .ok v)
    ∧ (∀ (m k : List (String × String)),
        lookupA k "x" = none → lookupA m "x" = none →
          (TemplateEx.ofString "$\x7bx|d\x7d").substitute m k = .ok "d") := by
  refine ⟨?_, ?_, ?_, ?_, ?_, ?_⟩
  · intro t m k x v hk
    simp [TemplateEx.effectiveMapping, chainMap2, hk]
  · intro t m k x v hk hm
    simp [TemplateEx.effectiveMapping, chainMap2, hk, hm]
  · intro t m k x hk hm
    simp [TemplateEx.effectiveMapping, chainMap2, hk, hm]
  · intro m k v hk
    simp [TemplateEx.ofString, TemplateEx.ofChars, TemplateEx.substitute,
      rewriteDefaults, takeIdCont, isIdStart, isIdCont, splitUntilBrace, scan,
      renderStrict, TemplateEx.effectiveMapping, chainMap2, lookupA, hk,
      tokWidth, Except.map]
  · intro m k v hk hm
    simp [TemplateEx.ofString, TemplateEx.ofChars, TemplateEx.substitute,
      rewriteDefaults, takeIdCont, isIdStart, isIdCont, splitUntilBrace, scan,
      renderStrict, TemplateEx.effectiveMapping, chainMap2, lookupA, hk, hm,
      tokWidth, Except.map]
  · intro m k hk hm
    simp [TemplateEx.ofString, TemplateEx.ofChars, TemplateEx.substitute,
      rewriteDefaults, takeIdCont, isIdStart, isIdCont, splitUntilBrace, scan,
      renderStrict, TemplateEx.effectiveMapping, chainMap2, lookupA, hk, hm,
      tokWidth, Except.map]

theorem claim_c4_substitution_precedence_witness :
    lookupA [("x", "KW")] "x" = some "KW"
    ∧ (TemplateEx.ofString "$\x7bx|d\x7d").substitute [("x", "MAP")] [("x", "KW")] = .ok "KW"
    ∧ lookupA ([] : List (String × String)) "x" = none
    ∧ (TemplateEx.ofString "$\x7bx|d\x7d").substitute [("x", "MAP")] [] = .ok "MAP"
    ∧ (TemplateEx.ofString "$\x7bx|d\x7d").substitute [] [] = .ok "d" :=
  ⟨by simp [lookupA],
   claim_c4_substitution_precedence.2.2.2.1 [("x", "MAP")] [("x", "KW")] "KW"
     (by simp [lookupA]),
   by simp [lookupA],
   claim_c4_substitution_precedence.2.2.2.2.1 [("x", "MAP")] [] "MAP"
     (by simp [lookupA]) (by simp [lookupA]),
   claim_c4_substitution_precedence.2.2.2.2.2 [] []
     (by simp [lookupA]) (by simp [lookupA])⟩

/-- Claim C5 (counterexample): the claim says that for every no-default
placeholder identifier `x` not supplied by the mapping, `substitute` raises
a missing-identifier error naming `x`.  For template `"$\x7by\x7d $\x7bx\x7d"`
and the empty mapping, take `x := "x"`: it is a no-default placeholder of
the template and is unsupplied, yet `substitute` raises `KeyError("y")` —
the matches are converted left to right, so the first unresolved
placeholder, not `x`, is named. -/
theorem claim_c5_counterexample :
    (TemplateEx.ofString "$\x7by\x7d $\x7bx\x7d").substitute [] [] =
      .error (.keyError "y")
    ∧ Tok.braced "x" ∈ scan (TemplateEx.ofString "$\x7by\x7d $\x7bx\x7d").template
    ∧ (TemplateEx.ofString "$\x7by\x7d $\x7bx\x7d").effectiveMapping [] [] "x" = none
    ∧ PyError.keyError "y" ≠ PyError.keyError "x" := by
  refine ⟨?_, ?_, ?_, by decide⟩
  · simp [TemplateEx.ofString, TemplateEx.ofChars, TemplateEx.substitute,
      rewriteDefaults, takeIdCont, isIdStart, isIdCont, scan, renderStrict,
      TemplateEx.effectiveMapping, chainMap2, lookupA, tokWidth, Except.map]
  · simp [TemplateEx.ofString, TemplateEx.ofChars, rewriteDefaults, takeIdCont,
      isIdStart, isIdCont, scan]
  · simp [TemplateEx.effectiveMapping, chainMap2, lookupA, TemplateEx.ofString,
      TemplateEx.ofChars, rewriteDefaults, takeIdCont, isIdStart, isIdCont]

/-- Claim C5 (amended): for a template containing a no-default placeholder
identifier `x` not supplied by the mapping (and containing no malformed `$`
sequence), `TemplateEx.substitute` raises a missing-identifier `KeyError` —
naming the first unresolved placeholder identifier in scan order, which is
`x` itself only when `x`'s placeholder is the first unresolved one; any
identifier so named is itself an unsupplied, default-less placeholder
identifier — while `TemplateEx.safe_substitute` does not raise and leaves
the placeholder text verbatim in the output; concretely, template
`"$\x7ba\x7d $\x7bb|ten\x7d"` with mapping `a ↦ 1` substitutes to
`"1 ten"`, and `safe_substitute` with an empty mapping yields
`"$\x7ba\x7d ten"`. -/
theorem claim_c5_missing_identifier :
    ((TemplateEx.ofString "$\x7ba\x7d $\x7bb|ten\x7d").substitute
        [("a", "1")] [] = .ok "1 ten")
    ∧ ((TemplateEx.ofString "$\x7ba\x7d $\x7bb|ten\x7d").safe_substitute
        [] [] = "$\x7ba\x7d ten")
    ∧ (∀ (t : TemplateEx) (m k : List (String × String)) (x : String),
        Tok.invalid ∉ scan t.template →
        (Tok.named x ∈ scan t.template ∨ Tok.braced x ∈ scan t.template) →
        t.effectiveMapping m k x = none →
        ∃ y, t.substitute m k = .error (.keyError y) ∧
          firstMissingId (t.effectiveMapping m k) (scan t.template) = some y)
    ∧ (∀ (t : TemplateEx) (m k : List (String × String)) (x : String),
        t.substitute m k = .error (.keyError x) →
        t.effectiveMapping m k x = none ∧
          (Tok.named x ∈ scan t.template ∨ Tok.braced x ∈ scan t.template))
    ∧ (∀ (t : TemplateEx) (m k : List (String × String)) (x : String),
        Tok.braced x ∈ scan t.template → t.effectiveMapping m k x = none →
        strContains (t.safe_substitute m k) ("$\x7b" ++ x ++ "\x7d") = true) := by
  refine ⟨?_, ?_, ?_, ?_, ?_⟩
  · simp [TemplateEx.ofString, TemplateEx.ofChars, TemplateEx.substitute,
      rewriteDefaults, takeIdCont, isIdStart, isIdCont, splitUntilBrace, scan,
      renderStrict, TemplateEx.effectiveMapping, chainMap2, lookupA,
      tokWidth, Except.map]
  · simp [TemplateEx.ofString, TemplateEx.ofChars, TemplateEx.safe_substitute,
      rewriteDefaults, takeIdCont, isIdStart, isIdCont, splitUntilBrace, scan,
      renderSafe, safeConvert, TemplateEx.effectiveMapping, chainMap2, lookupA]
  · intro t m k x hnoinv hmem hf
    obtain ⟨y, he, hfirst⟩ :=
      renderStrict_first_missing (scan t.template) 0 hnoinv hmem hf
    exact ⟨y, by simp only [TemplateEx.substitute]; rw [he]; rfl, hfirst⟩
  · intro t m k x h
    simp only [TemplateEx.substitute] at h
    rw [except_map_error] at h
    exact renderStrict_keyError h
  · intro t m k x hmem hf
    obtain ⟨l1, l2, hsplit⟩ := List.append_of_mem hmem
    show hasSub ("$\x7b" ++ x ++ "\x7d").data
      (renderSafe (t.effectiveMapping m k) (scan t.template)) = true
    rw [hsplit, renderSafe_append, renderSafe_cons]
    have hc : safeConvert (t.effectiveMapping m k) (Tok.braced x) =
        '$' :: '{' :: x.data ++ ['}'] := by
      simp [safeConvert, hf]
    have hneedle : ("$\x7b" ++ x ++ "\x7d").data = '$' :: '{' :: x.data ++ ['}'] := by
      cases x
      rfl
    rw [hc, hneedle]
    exact hasSub_append_left _ (hasSub_append_self _ _)

theorem claim_c5_missing_identifier_witness :
    (∃ y, (TemplateEx.ofString "$\x7bq\x7d").substitute [] [] =
        .error (.keyError y) ∧
      firstMissingId ((TemplateEx.ofString "$\x7bq\x7d").effectiveMapping [] [])
        (scan (TemplateEx.ofString "$\x7bq\x7d").template) = some y)
    ∧ strContains ((TemplateEx.ofString "$\x7bq\x7d").safe_substitute [] [])
        ("$\x7b" ++ "q" ++ "\x7d") = true :=
  ⟨claim_c5_missing_identifier.2.2.1 (TemplateEx.ofString "$\x7bq\x7d") [] [] "q"
     (by simp [TemplateEx.ofString, TemplateEx.ofChars, rewriteDefaults,
        takeIdCont, isIdStart, isIdCont, scan])
     (Or.inr (by simp [TemplateEx.ofString, TemplateEx.ofChars, rewriteDefaults,
        takeIdCont, isIdStart, isIdCont, scan]))
     (by simp [TemplateEx.effectiveMapping, chainMap2, lookupA,
        TemplateEx.ofString, TemplateEx.ofChars, rewriteDefaults, takeIdCont,
        isIdStart, isIdCont]),
   claim_c5_missing_identifier.2.2.2.2 (TemplateEx.ofString "$\x7bq\x7d") [] [] "q"
     (by simp [TemplateEx.ofString, TemplateEx.ofChars, rewriteDefaults,
        takeIdCont, isIdStart, isIdCont, scan])
     (by simp [TemplateEx.effectiveMapping, chainMap2, lookupA,
        TemplateEx.ofString, TemplateEx.ofChars, rewriteDefaults, takeIdCont,
        isIdStart, isIdCont])⟩

/-- Claim C7 (corrected): the claim asserts that both `substitute` and
`safe_substitute` fail eagerly on a malformed, unescaped `$` sequence.  The
code (CPython's `Template`) only does so for `substitute`; `safe_substitute`
reproduces the invalid match verbatim (`return mo.group()`) and produces
output.  This counterexample shows `safe_substitute` on `"abc$"` (a trailing
bare `$`) returning `"abc$"` rather than failing, while `substitute` on the
same input does fail, identifying offset 3. -/
theorem claim_c7_counterexample :
    (TemplateEx.ofString "abc$").safe_substitute [] [] = "abc$"
    ∧ (TemplateEx.ofString "abc$").substitute [] [] =
        .error (.valueErrorInvalidPlaceholder 3) := by
  constructor
  · simp [TemplateEx.ofString, TemplateEx.ofChars, TemplateEx.safe_substitute,
      rewriteDefaults, takeIdCont, isIdStart, isIdCont, scan, renderSafe,
      safeConvert, TemplateEx.effectiveMapping, chainMap2, lookupA]
  · simp [TemplateEx.ofString, TemplateEx.ofChars, TemplateEx.substitute,
      rewriteDefaults, takeIdCont, isIdStart, isIdCont, scan, renderStrict,
      TemplateEx.effectiveMapping, chainMap2, lookupA, tokWidth, Except.map]

/-- Claim C7 (amended): for every input text containing a malformed,
unescaped `$` sequence, `TemplateEx.substitute` fails eagerly with a
`ValueError` identifying the offset of the first such sequence (provided the
template's identifiers all resolve, so no `KeyError` pre-empts it);
`TemplateEx.safe_substitute` does not fail, leaving the offending `$`
verbatim in its output. -/
theorem claim_c7_invalid_placeholder :
    (∀ (t : TemplateEx) (m k : List (String × String)),
        Tok.invalid ∈ scan t.template →
        (∀ x, (Tok.named x ∈ scan t.template ∨ Tok.braced x ∈ scan t.template) →
            t.effectiveMapping m k x ≠ none) →
        t.substitute m k = .error (.valueErrorInvalidPlaceholder
          ((firstInvalidPosAux (scan t.template) 0).getD 0)))
    ∧ (∀ (t : TemplateEx) (m k : List (String × String)),
        Tok.invalid ∈ scan t.template →
        strContains (t.safe_substitute m k) "$" = true) := by
  constructor
  · intro t m k hinv hres
    simp only [TemplateEx.substitute]
    rw [renderStrict_invalid hres hinv 0]
    rfl
  · intro t m k hinv
    obtain ⟨l1, l2, hsplit⟩ := List.append_of_mem hinv
    show hasSub ("$" : String).data
      (renderSafe (t.effectiveMapping m k) (scan t.template)) = true
    rw [hsplit, renderSafe_append, renderSafe_cons]
    exact hasSub_append_left _ (hasSub_append_self _ _)

theorem claim_c7_invalid_placeholder_witness :
    Tok.invalid ∈ scan (TemplateEx.ofString "ab$").template
    ∧ (TemplateEx.ofString "ab$").substitute [] [] =
        .error (.valueErrorInvalidPlaceholder
          ((firstInvalidPosAux (scan (TemplateEx.ofString "ab$").template) 0).getD 0))
    ∧ strContains ((TemplateEx.ofString "ab$").safe_substitute [] []) "$" = true :=
  ⟨by simp [TemplateEx.ofString, TemplateEx.ofChars, rewriteDefaults,
      takeIdCont, isIdStart, isIdCont, scan],
   claim_c7_invalid_placeholder.1 (TemplateEx.ofString "ab$") [] []
     (by simp [TemplateEx.ofString, TemplateEx.ofChars, rewriteDefaults,
        takeIdCont, isIdStart, isIdCont, scan])
     (by intro x hx
         simp [TemplateEx.ofString, TemplateEx.ofChars, rewriteDefaults,
           takeIdCont, isIdStart, isIdCont, scan] at hx),
   claim_c7_invalid_placeholder.2 (TemplateEx.ofString "ab$") [] []
     (by simp [TemplateEx.ofString, TemplateEx.ofChars, rewriteDefaults,
        takeIdCont, isIdStart, isIdCont, scan])⟩

/-- Claim C8: a template default declared as `$\x7bx|d\x7d` is applied
verbatim when `x` is not supplied — including the empty-string default — and
`get_identifiers_and_defaults` maps every identifier with no declared default
to the distinct no-default value `none` (never to the empty string). -/
theorem claim_c8_default_values :
    (∀ (d : List Char), (∀ c ∈ d, c ≠ '}') →
        (TemplateEx.ofChars ('$' :: '{' :: 'x' :: '|' :: (d ++ ['}']))).substitute
            [] [] = .ok (String.mk d)
        ∧ (TemplateEx.ofChars
              ('$' :: '{' :: 'x' :: '|' :: (d ++ ['}']))).get_identifiers_and_defaults
            = [("x", some (String.mk d))])
    ∧ (TemplateEx.ofString "$\x7ba\x7d $\x7bb|\x7d").get_identifiers_and_defaults
        = [("a", none), ("b", some "")] := by
  constructor
  · intro d hd
    have hsb := splitUntilBrace_no_brace hd ([] : List Char)
    have hrw : rewriteDefaults ('$' :: '{' :: 'x' :: '|' :: (d ++ ['}'])) =
        ([("x", String.mk d)], ['$', '{', 'x', '}']) := by
      simp [rewriteDefaults, takeIdCont, isIdStart, isIdCont]
      split <;> simp_all [rewriteDefaults]
    constructor
    · simp [TemplateEx.ofChars, TemplateEx.substitute, hrw, scan, takeIdCont,
        isIdStart, isIdCont, renderStrict, TemplateEx.effectiveMapping,
        chainMap2, lookupA, tokWidth, Except.map]
    · simp [TemplateEx.ofChars, TemplateEx.get_identifiers_and_defaults, hrw,
        getIdentifiers, scan, takeIdCont, isIdStart, isIdCont, tokName,
        addFirst, lookupA]
  · simp [TemplateEx.ofString, TemplateEx.ofChars,
      TemplateEx.get_identifiers_and_defaults, rewriteDefaults, takeIdCont,
      isIdStart, isIdCont, splitUntilBrace, getIdentifiers, scan, tokName,
      addFirst, lookupA]

theorem claim_c8_default_values_witness :
    (∀ c ∈ ("ten".data), c ≠ '}')
    ∧ (TemplateEx.ofChars ('$' :: '{' :: 'x' :: '|' :: ("ten".data ++ ['}']))).substitute
        [] [] = .ok "ten"
    ∧ (TemplateEx.ofChars
        ('$' :: '{' :: 'x' :: '|' :: (([] : List Char) ++ ['}']))).substitute
        [] [] = .ok "" :=
  ⟨by decide,
   (claim_c8_default_values.1 "ten".data (by decide)).1,
   (claim_c8_default_values.1 [] (by decide)).1⟩

/-- Claim C2: for every completed `execute_task` run with a declared
out-file, the outcome is success exactly when the exit code is zero AND the
out-file exists after the engine ran AND the captured combined output does
not contain `"### ERROR"`; when any of the three fails, the run raises
`CalledProcessError` carrying the exit code, the invoked command line and the
full captured diagnostic text. -/
theorem claim_c2_outcome_classification (w : World) (eng : EngineBehavior)
    (in_file ofp : FPath) (pat : Option String)
    (hin : w.existsFile in_file = true) :
    ((∃ lines, (execute_task w eng in_file (some ofp) pat).result = .ok lines) ↔
      (eng.exitCode = 0 ∧ (runEngine w eng in_file.dir).existsFile ofp = true ∧
        strContains (joinAll (drainLoop eng.stdoutLines)) "### ERROR" = false))
    ∧ (¬ (eng.exitCode = 0 ∧ (runEngine w eng in_file.dir).existsFile ofp = true ∧
          strContains (joinAll (drainLoop eng.stdoutLines)) "### ERROR" = false) →
        (execute_task w eng in_file (some ofp) pat).result =
          .error (.calledProcessError eng.exitCode ["./jktebop", in_file.name]
            (joinAll (drainLoop eng.stdoutLines)))) := by
  simp only [execute_task, execute_task_async, hin, if_true]
  by_cases h0 : eng.exitCode = 0
  · by_cases h1 : (runEngine w eng in_file.dir).existsFile ofp = true
    · by_cases h2 : strContains (joinAll (drainLoop eng.stdoutLines)) "### ERROR" = true
      · simp [h0, h1, h2]
      · rcases pat with _ | p
        · simp [h0, h1, h2]
        · by_cases hp : p = "" <;> simp [h0, h1, h2, hp]
    · simp [h0, h1]
  · simp [h0]

theorem claim_c2_outcome_classification_witness :
    ∃ lines,
      (execute_task ⟨[(⟨"/w", "a.in"⟩, ["x"])]⟩ ⟨0, ["hello\n"], [("a.out", ["r1"])]⟩
        ⟨"/w", "a.in"⟩ (some ⟨"/w", "a.out"⟩) none).result = .ok lines :=
  (claim_c2_outcome_classification ⟨[(⟨"/w", "a.in"⟩, ["x"])]⟩
      ⟨0, ["hello\n"], [("a.out", ["r1"])]⟩ ⟨"/w", "a.in"⟩ ⟨"/w", "a.out"⟩ none
      (by rfl)).1.mpr
    ⟨rfl, by rfl, by rfl⟩

/-- Claim C3 (code bug): with no out-file declared (`out_file is None`), the
claim — and the code's own docstring, which calls `out_file` optional, and
the later `if out_file:` guard — say a run with exit code 0 and no
`"### ERROR"` output is classified as succeeded, yielding no result lines.
The code instead evaluates `out_file.exists()` unconditionally in the
classification, so such a run raises
`AttributeError: 'NoneType' object has no attribute 'exists'`.  This theorem
evaluates the embedded code at the failing input: in-file present, exit code
0, output `"all good\n"` (no error marker), `out_file=None`. -/
theorem claim_c3_none_out_file_attribute_error :
    (execute_task ⟨[(⟨"/work", "run.in"⟩, ["input"])]⟩ ⟨0, ["all good\n"], []⟩
        ⟨"/work", "run.in"⟩ none none).result = .error (.attributeErrorNone "exists")
    ∧ strContains (joinAll (drainLoop ["all good\n"])) "### ERROR" = false := by
  constructor
  · rfl
  · rfl

/-- Claim C6: cleanup deletion happens only when a cleanup pattern was given
(and truthy) AND the run was classified as succeeded, deleting the files
matching the pattern in the in-file's and out-file's parent directories; on
any failure the filesystem is left exactly as the engine run left it. -/
theorem claim_c6_cleanup_on_success_only (w : World) (eng : EngineBehavior)
    (in_file : FPath) (out_file : Option FPath) (pat : Option String)
    (hin : w.existsFile in_file = true) :
    (∀ e, (execute_task w eng in_file out_file pat).result = .error e →
        (execute_task w eng in_file out_file pat).world = runEngine w eng in_file.dir)
    ∧ ((pat = none ∨ pat = some "") →
        (execute_task w eng in_file out_file pat).world = runEngine w eng in_file.dir)
    ∧ (∀ (p : String) (ofp : FPath) (lines : List String), pat = some p → p ≠ "" →
        out_file = some ofp →
        (execute_task w eng in_file out_file pat).result = .ok lines →
        (execute_task w eng in_file out_file pat).world =
          deleteMatching (deleteMatching (runEngine w eng in_file.dir) in_file.dir p)
            ofp.dir p) := by
  simp only [execute_task, execute_task_async, hin, if_true]
  by_cases h0 : eng.exitCode = 0
  · rcases out_file with _ | ofp
    · simp [h0]
    · by_cases h1 : (runEngine w eng in_file.dir).existsFile ofp = true
      · by_cases h2 : strContains (joinAll (drainLoop eng.stdoutLines)) "### ERROR" = true
        · simp [h0, h1, h2]
        · rcases pat with _ | p
          · simp [h0, h1, h2]
          · by_cases hp : p = ""
            · simp [h0, h1, h2, hp]
              intro p1 ofp1 lines h5 h6
              exact absurd h5.symm h6
            · simp [h0, h1, h2, hp]
              intro p1 ofp1 lines h5 h6 h7 h8
              subst h5
              subst h7
              rfl
      · simp [h0, h1]
  · simp [h0]

theorem claim_c6_cleanup_on_success_only_witness :
    (execute_task ⟨[(⟨"/w", "b.in"⟩, ["x"])]⟩ ⟨0, [], [("b.out", ["r"])]⟩
        ⟨"/w", "b.in"⟩ (some ⟨"/w", "b.out"⟩) (some "b.*")).world =
      deleteMatching
        (deleteMatching
          (runEngine ⟨[(⟨"/w", "b.in"⟩, ["x"])]⟩ ⟨0, [], [("b.out", ["r"])]⟩ "/w")
          "/w" "b.*")
        "/w" "b.*" :=
  (claim_c6_cleanup_on_success_only ⟨[(⟨"/w", "b.in"⟩, ["x"])]⟩
      ⟨0, [], [("b.out", ["r"])]⟩ ⟨"/w", "b.in"⟩ (some ⟨"/w", "b.out"⟩)
      (some "b.*") (by rfl)).2.2 "b.*" ⟨"/w", "b.out"⟩ ["r"]
    rfl (by decide) rfl (by rfl)

/-- Claim C9: when the in-file does not exist, both `execute_task_async` and
(a consumed) `execute_task` fail immediately with `FileNotFoundError` naming
the in-file, and no process is spawned before that failure. -/
theorem claim_c9_missing_in_file (w : World) (eng : EngineBehavior)
    (in_file : FPath) (out_file : Option FPath) (pat : Option String)
    (hin : w.existsFile in_file = false) :
    execute_task_async w in_file =
      .error (.fileNotFoundError (in_file.dir ++ "/" ++ in_file.name))
    ∧ execute_task w eng in_file out_file pat =
      { result := .error (.fileNotFoundError (in_file.dir ++ "/" ++ in_file.name)),
        world := w, spawns := [], captured := [] } := by
  have h1 : execute_task_async w in_file =
      .error (.fileNotFoundError (in_file.dir ++ "/" ++ in_file.name)) := by
    simp [execute_task_async, hin]
  exact ⟨h1, by simp [execute_task, h1]⟩

theorem claim_c9_missing_in_file_witness :
    execute_task_async ⟨[]⟩ ⟨"/w", "nope.in"⟩ =
      .error (.fileNotFoundError ("/w" ++ "/" ++ "nope.in"))
    ∧ (execute_task ⟨[]⟩ ⟨0, [], []⟩ ⟨"/w", "nope.in"⟩ none none).spawns = [] :=
  ⟨(claim_c9_missing_in_file ⟨[]⟩ ⟨0, [], []⟩ ⟨"/w", "nope.in"⟩ none none
      (by rfl)).1,
   by rw [(claim_c9_missing_in_file ⟨[]⟩ ⟨0, [], []⟩ ⟨"/w", "nope.in"⟩ none none
      (by rfl)).2]⟩

/-- Claim C10: every line the engine writes to its combined output stream
before exiting is in the diagnostic buffer at classification time — the
caller waits for the exit code and then joins the draining worker before
classifying, so with the join modelled as sequencing, an engine writing N
(non-empty, newline-terminated) lines yields a buffer of exactly those N
lines, with no truncation. -/
theorem claim_c10_drain_before_classify (w : World) (eng : EngineBehavior)
    (in_file : FPath) (out_file : Option FPath) (pat : Option String)
    (hin : w.existsFile in_file = true)
    (hlines : ∀ l ∈ eng.stdoutLines, l ≠ "") :
    (execute_task w eng in_file out_file pat).captured = eng.stdoutLines
    ∧ (execute_task w eng in_file out_file pat).captured.length =
        eng.stdoutLines.length := by
  have hd := drainLoop_all hlines
  have hcap : (execute_task w eng in_file out_file pat).captured = eng.stdoutLines := by
    simp only [execute_task, execute_task_async, hin, if_true]
    repeat' split
    all_goals simp [hd]
  exact ⟨hcap, by rw [hcap]⟩

theorem claim_c10_drain_before_classify_witness :
    (execute_task ⟨[(⟨"/w", "c.in"⟩, ["x"])]⟩ ⟨1, ["l1\n", "l2\n", "l3\n"], []⟩
        ⟨"/w", "c.in"⟩ none none).captured = ["l1\n", "l2\n", "l3\n"] :=
  (claim_c10_drain_before_classify ⟨[(⟨"/w", "c.in"⟩, ["x"])]⟩
      ⟨1, ["l1\n", "l2\n", "l3\n"], []⟩ ⟨"/w", "c.in"⟩ none none
      (by rfl) (by decide)).1

/-- Claim C1 (code bug): the claim — matching `Task.run`'s docstring and its
`# Blocking call` comment — says `Task.run` executes the Process Runner's
full blocking sequence (launch, drain, wait, classify) and yields the lines
of an engine-produced result file, with Process Runner failures propagating.
In the code, `execute_task` is a generator function and `Task.run` discards
the generator it returns without iterating it, so no process is ever spawned
(first conjunct: under every input, the consumed `Task.run` records zero
spawns); consequently a run that should succeed fails with
`FileNotFoundError` when `Task.run` itself opens the never-produced result
file (second conjunct evaluates the embedded code at such an input). -/
theorem claim_c1_task_run_never_spawns :
    (∀ (t : Task) (w : World) (params : List (String × String))
        (file_stem : String) (ext : Option String) (dc : Bool),
        (Task.run t w params file_stem ext dc).spawns = [])
    ∧ (Task.run ⟨"/work", TemplateEx.ofString ""⟩ ⟨[]⟩ [] "t" (some "out") true).result =
        .error (.fileNotFoundError "/work/t.out") := by
  constructor
  · intro t w params file_stem ext dc
    simp only [Task.run]
    split
    · rfl
    · split
      · split
        · rfl
        · rfl
      · rfl
  · simp [Task.run, TemplateEx.ofString, TemplateEx.ofChars, rewriteDefaults,
      TemplateEx.substitute, scan, renderStrict, TemplateEx.effectiveMapping,
      chainMap2, lookupA, Task.cleanup_files, World.unlinkFile, World.writeFile,
      World.readFile, Except.map]

end Deblib

